import Mathlib

/-!
Shallow embedding of the apiclient core of terraform-provider-restapi
(internal/apiclient/api_client.go and internal/provider/tenant_resource.go),
together with theorems checking the natural-language specification claims.
Go strings are modelled by Lean strings; Go byte slices by lists of Nat;
Go maps by association lists; external effects (HTTP transport, clock,
TLS loading, OAuth token fetch, JWT signing) by explicit oracle inputs.
-/

namespace RestApi

/-! ### Go string primitives used by the source -/

/-- Go strings.HasSuffix. -/
def hasSuffixGo (s suf : String) : Bool := suf.data.isSuffixOf s.data

/-- Go strings.TrimSuffix: removes at most ONE copy of the suffix. -/
def trimSuffixGo (s suf : String) : String :=
  if hasSuffixGo s suf then String.mk (s.data.take (s.data.length - suf.data.length)) else s

/-- Go strings.HasPrefix. -/
def hasPrefixGo (s p : String) : Bool := p.data.isPrefixOf s.data

/-- Go strings.TrimPrefix: removes at most one copy of the leading string. -/
def trimPrefixGo (s p : String) : String :=
  if hasPrefixGo s p then String.mk (s.data.drop p.data.length) else s

/-- Go strings.TrimRight with cutset "/": drops EVERY trailing slash. -/
def trimRightSlashGo (s : String) : String :=
  String.mk ((s.data.reverse.dropWhile (fun c => c = '/')).reverse)

/-- Core of Go strings.Split with separator ",". -/
def splitCommaCh : List Char → List (List Char)
  | [] => [[]]
  | c :: cs =>
    if c = ',' then [] :: splitCommaCh cs
    else
      match splitCommaCh cs with
      | [] => [[c]]
      | h :: t => (c :: h) :: t

/-- Go strings.Split(s, ",") : splits at every comma. -/
def splitCommaGo (s : String) : List String := (splitCommaCh s.data).map String.mk

/-! ### Go []byte(string): UTF-8 bytes, and base64 standard encoding -/

/-- UTF-8 encoding of one character, bytes as Nat. -/
def utf8BytesChar (c : Char) : List Nat :=
  let n := c.toNat
  if n < 128 then [n]
  else if n < 2048 then [192 + n / 64, 128 + n % 64]
  else if n < 65536 then [224 + n / 4096, 128 + (n / 64) % 64, 128 + n % 64]
  else [240 + n / 262144, 128 + (n / 4096) % 64, 128 + (n / 64) % 64, 128 + n % 64]

/-- Go []byte(s): the UTF-8 bytes of the string. -/
def strBytes (s : String) : List Nat := s.data.flatMap utf8BytesChar

/-- The base64 standard alphabet. -/
def base64Alphabet : List Char :=
  "ABCDEFGHIJKLMNOPQRSTUVWXYZabcdefghijklmnopqrstuvwxyz0123456789+/".data

/-- One 6-bit group to its base64 character. -/
def b64c (n : Nat) : Char := base64Alphabet.getD n 'A'

/-- base64.StdEncoding.EncodeToString, on bytes as Nat. -/
def base64Encode : List Nat → List Char
  | b1 :: b2 :: b3 :: rest =>
    b64c (b1 / 4) :: b64c ((b1 % 4) * 16 + b2 / 16) ::
      b64c ((b2 % 16) * 4 + b3 / 64) :: b64c (b3 % 64) :: base64Encode rest
  | [b1, b2] => [b64c (b1 / 4), b64c ((b1 % 4) * 16 + b2 / 16), b64c ((b2 % 16) * 4), '=']
  | [b1] => [b64c (b1 / 4), b64c ((b1 % 4) * 16), '=', '=']
  | [] => []

/-- Go net/http basicAuth(username, password):
base64 of "username:password". -/
def basicAuth (user pass : String) : String :=
  String.mk (base64Encode (strBytes (user ++ ":" ++ pass)))

/-! ### Go net/textproto canonical MIME header keys and http.Header -/

/-- Go textproto token bytes: digits, letters, and the fifteen marks
allowed inside a header field name. -/
def isTokenCharGo (c : Char) : Bool :=
  let n := c.toNat
  (decide (48 ≤ n) && decide (n ≤ 57)) ||
  (decide (65 ≤ n) && decide (n ≤ 90)) ||
  (decide (97 ≤ n) && decide (n ≤ 122)) ||
  [33, 35, 36, 37, 38, 39, 42, 43, 45, 46, 94, 95, 96, 124, 126].contains n

/-- One step of Go canonicalMIMEHeaderKey: upper-case at a word start,
lower-case elsewhere. -/
def canonChar (upper : Bool) (c : Char) : Char :=
  let n := c.toNat
  if upper && decide (97 ≤ n) && decide (n ≤ 122) then Char.ofNat (n - 32)
  else if !upper && decide (65 ≤ n) && decide (n ≤ 90) then Char.ofNat (n + 32)
  else c

/-- Canonicalisation walk; the next character is upper-cased exactly when
the current output character is a hyphen. -/
def canonList : Bool → List Char → List Char
  | _, [] => []
  | upper, c :: cs =>
    let c2 := canonChar upper c
    c2 :: canonList (c2 == '-') cs

/-- Go textproto.CanonicalMIMEHeaderKey: keys with an invalid byte are
returned unchanged, others are canonicalised. -/
def canonicalKeyGo (s : String) : String :=
  if s.data.all isTokenCharGo then String.mk (canonList true s.data) else s

/-- Association-list update with Go map-assignment semantics: replace the
value in place when the key exists, append otherwise. -/
def assocSet {α : Type} : List (String × α) → String → α → List (String × α)
  | [], k, v => [(k, v)]
  | (k0, v0) :: t, k, v =>
    if k0 = k then (k, v) :: t else (k0, v0) :: assocSet t k v

/-- Association-list lookup (Go map indexing, comma-ok form). -/
def assocGet {α : Type} : List (String × α) → String → Option α
  | [], _ => none
  | (k0, v0) :: t, k => if k0 = k then some v0 else assocGet t k

/-- An http.Header: canonical keys, one value per key as the code only
ever uses Set. -/
abbrev Header : Type := List (String × String)

/-- Go http.Header.Set: canonicalise the key, then assign. -/
def hdrSet (h : Header) (k v : String) : Header :=
  assocSet h (canonicalKeyGo k) v

/-- Go http.Header lookup through the canonical key. -/
def hdrGet (h : Header) (k : String) : Option String :=
  assocGet h (canonicalKeyGo k)

example : trimSuffixGo "https://example.com//" "/" = "https://example.com/" := by decide
example : trimSuffixGo "https://x/" "/" = "https://x" := by decide
example : trimRightSlashGo "a///" = "a" := by decide
example : splitCommaGo "a,b,c" = ["a", "b", "c"] := by decide
example : splitCommaGo "" = [""] := by decide
example : basicAuth "u" "p" = "dTpw" := by decide
example : canonicalKeyGo "authorization" = "Authorization" := by decide
example : canonicalKeyGo "content-type" = "Content-Type" := by decide

/-! ### Data model: JwtHashedToken, options struct, APIClient -/

/-- A value stored in the JWT claims map (Go map[string]any: JSON scalars
and the int64 epoch values written by the validity completion). -/
inductive ClaimV where
  | vnull : ClaimV
  | vbool (b : Bool) : ClaimV
  | vnum (q : ℚ) : ClaimV
  | vint (n : ℤ) : ClaimV
  | vstr (s : String) : ClaimV
deriving DecidableEq, Repr

/-- apiclient.JwtHashedToken. The Go field name Algortithm (sic) is kept. -/
structure JwtHashedToken where
  Secret : List Nat
  Algortithm : String
  Claims : List (String × ClaimV)
  ValidityDurationMinute : ℤ
deriving DecidableEq, Repr

/-- (jwt *JwtHashedToken) completeClaimValidityTime(): when the validity
duration is positive, write nbf, iat and exp into the claims map of the
SAME token (the Go method mutates its receiver; the returned value here
is the post-mutation token). `now` is the time.Now().Unix() oracle. -/
def completeClaimValidityTime (now : ℤ) (jwt : JwtHashedToken) : JwtHashedToken :=
  if 0 < jwt.ValidityDurationMinute then
    let c1 := assocSet jwt.Claims "nbf" (ClaimV.vint now)
    let c2 := assocSet c1 "iat" (ClaimV.vint now)
    let c3 := assocSet c2 "exp" (ClaimV.vint (now + jwt.ValidityDurationMinute * 60))
    { jwt with Claims := c3 }
  else jwt

/-- clientcredentials.Config as stored in APIClient.OauthConfig. -/
structure OauthCfg where
  ClientID : String
  ClientSecret : String
  TokenURL : String
  Scopes : List String
  EndpointParams : List (String × List String)
deriving DecidableEq, Repr

/-- apiclient.ApiClientOpt. The source field XssiPrefix is rendered as
XssiPrefixVal. -/
structure ApiClientOpt where
  Uri : String
  Jwt : Option JwtHashedToken
  Insecure : Bool
  Username : String
  Password : String
  Headers : List (String × String)
  Timeout : ℤ
  IdAttribute : String
  CreateMethod : String
  ReadMethod : String
  ReadData : String
  UpdateMethod : String
  UpdateData : String
  DestroyMethod : String
  DestroyData : String
  CopyKeys : List String
  WriteReturnsObject : Bool
  CreateReturnsObject : Bool
  XssiPrefixVal : String
  UseCookies : Bool
  RateLimit : ℚ
  OauthClientID : String
  OauthClientSecret : String
  OauthScopes : List String
  OauthTokenURL : String
  OauthEndpointParams : List (String × List String)
  CertFile : String
  KeyFile : String
  RootCaFile : String
  CertString : String
  KeyString : String
  RootCaString : String
  Debug : Bool
deriving DecidableEq, Repr

/-- apiclient.APIClient (the fields the claims are about; the http.Client
timeout/transport/cookie jar wiring carries no further logic). The source
field XssiPrefix is rendered as XssiPrefixVal. -/
structure APIClient where
  Uri : String
  Jwt : Option JwtHashedToken
  Insecure : Bool
  Username : String
  Password : String
  Headers : List (String × String)
  IdAttribute : String
  CreateMethod : String
  ReadMethod : String
  ReadData : String
  UpdateMethod : String
  UpdateData : String
  DestroyMethod : String
  DestroyData : String
  CopyKeys : List String
  WriteReturnsObject : Bool
  CreateReturnsObject : Bool
  XssiPrefixVal : String
  RateLimiterRate : ℚ
  RateLimiterBurst : ℤ
  Debug : Bool
  OauthConfig : Option OauthCfg
deriving DecidableEq, Repr

/-! ### NewAPIClient -/

/-- Go math.Round (half away from zero). The result of math.Round is an
integral float, written here directly as the integer it equals; the
computation is ⌊x + 1/2⌋ for x ≥ 0 and -⌊-x + 1/2⌋ otherwise, expressed
on the numerator and denominator so it evaluates by kernel reduction
(x ≥ 0 iff 0 ≤ x.num, and ⌊x + 1/2⌋ = (2*num + den) div (2*den) with
euclidean division by a positive denominator). -/
def goRoundZ (x : ℚ) : ℤ :=
  if 0 ≤ x.num then (2 * x.num + (x.den : ℤ)) / (2 * (x.den : ℤ))
  else -((2 * (-x.num) + (x.den : ℤ)) / (2 * (x.den : ℤ)))

/-- bucketSize := int(math.Max(math.Round(opt.RateLimit), 1)). math.Max
of two integral floats is their max and the int() conversion of an
integral float in range is exact, so the bucket size is this integer. -/
def bucketSizeGo (r : ℚ) : ℤ := max (goRoundZ r) 1

/-- Round half away from zero, directly as an integer (the arithmetic the
spec describes as round(R)). -/
def roundHalfAway (x : ℚ) : ℤ := if 0 ≤ x then ⌊x + 1 / 2⌋ else -⌊-x + 1 / 2⌋

/-- Decidable equality for Except values, used to evaluate the model on
concrete inputs. -/
instance instDecEqExcept {ε α : Type} [DecidableEq ε] [DecidableEq α] :
    DecidableEq (Except ε α)
  | .error e, .error f =>
    if h : e = f then isTrue (by rw [h]) else isFalse (fun hh => h (by cases hh; rfl))
  | .error _, .ok _ => isFalse (fun hh => Except.noConfusion hh)
  | .ok _, .error _ => isFalse (fun hh => Except.noConfusion hh)
  | .ok a, .ok b =>
    if h : a = b then isTrue (by rw [h]) else isFalse (fun hh => h (by cases hh; rfl))

/-- Success of the external TLS material loading steps inside NewAPIClient
(certificate parsing, CA file reading and pool append), as oracles. -/
structure TlsEnv where
  certStringOk : Bool
  certFileOk : Bool
  rootCaOk : Bool
deriving DecidableEq, Repr

/-- The in-place mutations NewAPIClient performs on *opt: the sane
default for IdAttribute, the trailing-slash trim of Uri, and the four
HTTP verb defaults. The assignments touch pairwise distinct fields, so
the sequential Go statements equal this one record update. -/
def applyOptDefaults (opt : ApiClientOpt) : ApiClientOpt :=
  { opt with
    IdAttribute := if opt.IdAttribute = "" then "id" else opt.IdAttribute
    Uri := trimSuffixGo opt.Uri "/"
    CreateMethod := if opt.CreateMethod = "" then "POST" else opt.CreateMethod
    ReadMethod := if opt.ReadMethod = "" then "GET" else opt.ReadMethod
    UpdateMethod := if opt.UpdateMethod = "" then "PUT" else opt.UpdateMethod
    DestroyMethod := if opt.DestroyMethod = "" then "DELETE" else opt.DestroyMethod }

/-- The APIClient literal NewAPIClient builds from the mutated options. -/
def mkAPIClient (opt : ApiClientOpt) : APIClient :=
  { Uri := opt.Uri
    Jwt := opt.Jwt
    Insecure := opt.Insecure
    Username := opt.Username
    Password := opt.Password
    Headers := opt.Headers
    IdAttribute := opt.IdAttribute
    CreateMethod := opt.CreateMethod
    ReadMethod := opt.ReadMethod
    ReadData := opt.ReadData
    UpdateMethod := opt.UpdateMethod
    UpdateData := opt.UpdateData
    DestroyMethod := opt.DestroyMethod
    DestroyData := opt.DestroyData
    CopyKeys := opt.CopyKeys
    WriteReturnsObject := opt.WriteReturnsObject
    CreateReturnsObject := opt.CreateReturnsObject
    XssiPrefixVal := opt.XssiPrefixVal
    RateLimiterRate := opt.RateLimit
    RateLimiterBurst := bucketSizeGo opt.RateLimit
    Debug := opt.Debug
    OauthConfig :=
      if opt.OauthClientID ≠ "" ∧ opt.OauthClientSecret ≠ "" ∧ opt.OauthTokenURL ≠ "" then
        some { ClientID := opt.OauthClientID
               ClientSecret := opt.OauthClientSecret
               TokenURL := opt.OauthTokenURL
               Scopes := opt.OauthScopes
               EndpointParams := opt.OauthEndpointParams }
      else none }

/-- apiclient.NewAPIClient. The Go function mutates *opt in place and
returns a client; here it returns the post-mutation options struct
together with the constructed client, or the construction error. -/
def NewAPIClientGo (opt0 : ApiClientOpt) (env : TlsEnv) :
    Except String (ApiClientOpt × APIClient) :=
  if opt0.Uri = "" then .error "uri must be set to construct an API client" else
  let opt := applyOptDefaults opt0
  if opt.CertString ≠ "" ∧ opt.KeyString ≠ "" ∧ env.certStringOk = false then
    .error "x509 key pair error" else
  if opt.CertFile ≠ "" ∧ opt.KeyFile ≠ "" ∧ env.certFileOk = false then
    .error "x509 key pair file error" else
  if (opt.RootCaFile ≠ "" ∨ opt.RootCaString ≠ "") ∧ env.rootCaOk = false then
    .error "failed to append root CA certificate" else
  .ok (opt, mkAPIClient opt)

/-- An all-empty options value to build concrete test inputs from. -/
def optBase : ApiClientOpt :=
  { Uri := "", Jwt := none, Insecure := false, Username := "", Password := ""
    Headers := [], Timeout := 0, IdAttribute := "", CreateMethod := ""
    ReadMethod := "", ReadData := "", UpdateMethod := "", UpdateData := ""
    DestroyMethod := "", DestroyData := "", CopyKeys := []
    WriteReturnsObject := false, CreateReturnsObject := false
    XssiPrefixVal := "", UseCookies := false, RateLimit := 0
    OauthClientID := "", OauthClientSecret := "", OauthScopes := []
    OauthTokenURL := "", OauthEndpointParams := [], CertFile := ""
    KeyFile := "", RootCaFile := "", CertString := "", KeyString := ""
    RootCaString := "", Debug := false }

/-- TLS oracle where every external loading step succeeds. -/
def tlsAllOk : TlsEnv := { certStringOk := true, certFileOk := true, rootCaOk := true }

example :
    (NewAPIClientGo { optBase with Uri := "https://x/" } tlsAllOk).map
      (fun pc => pc.2.Uri) = .ok "https://x" := by decide
example :
    (NewAPIClientGo { optBase with Uri := "https://x" } tlsAllOk).map
      (fun pc => (pc.2.CreateMethod, pc.2.IdAttribute, pc.2.RateLimiterBurst)) =
      .ok ("POST", "id", 1) := by decide
example : NewAPIClientGo optBase tlsAllOk =
    .error "uri must be set to construct an API client" := by decide

/-- The rational 7/2 as a raw value, to exercise the rounding path. -/
def ratSevenHalves : ℚ := ⟨7, 2, by decide, by decide⟩

example : bucketSizeGo ratSevenHalves = 4 := by decide
example : bucketSizeGo (-3) = 1 := by decide
example : bucketSizeGo 0 = 1 := by decide

/-! ### SendRequest -/

/-- The HTTP response handed back by client.HttpClient.Do, together with
the outcome of the io.ReadAll of its body. -/
structure HttpResp where
  statusCode : ℤ
  bodyStr : String
  readErr : Option String
deriving DecidableEq, Repr

/-- Oracles for every external effect inside one SendRequest call:
http.NewRequest failure, the clock, the JWT signature, the OAuth2 token
fetch, the rate limiter acquire, and the transport. The rate limiter
error is part of the environment although the source discards it with
`_ = client.RateLimiter.Wait(...)`. -/
structure Env where
  newRequestError : Option String
  now : ℤ
  sign : Except String String
  oauthToken : Except String String
  limiterErr : Option String
  transport : Except String HttpResp
deriving DecidableEq, Repr

/-- The token value Go receives from getSignedJwt: the error is ignored
(`jwt, _ :=`), and on failure SignedString returns the empty string. -/
def signedTokenOf (env : Env) : String :=
  match env.sign with
  | .ok t => t
  | .error _ => ""

/-- The request handed to client.HttpClient.Do. -/
structure BuiltRequest where
  method : String
  url : String
  headers : Header
  hasBody : Bool
deriving DecidableEq, Repr

/-- Header assembly order of SendRequest: Content-Type default for a
non-empty body, then the configured static headers, then JWT, then
OAuth2, then Basic; each step writes through http.Header.Set. Returns
none when the OAuth2 token fetch fails (SendRequest returns before any
request is dispatched). -/
def applyBasicAuth (c : APIClient) (h : Header) : Header :=
  if c.Username ≠ "" ∧ c.Password ≠ "" then
    hdrSet h "Authorization" ("Basic " ++ basicAuth c.Username c.Password)
  else h

def requestHeaders (c : APIClient) (env : Env) (data : String) : Option Header :=
  let h0 : Header := if data = "" then [] else hdrSet [] "Content-Type" "application/json"
  let h1 := c.Headers.foldl (fun acc kv => hdrSet acc kv.1 kv.2) h0
  let h2 :=
    match c.Jwt with
    | none => h1
    | some _ => hdrSet h1 "Authorization" ("Bearer " ++ signedTokenOf env)
  match c.OauthConfig with
  | none => some (applyBasicAuth c h2)
  | some _ =>
    match env.oauthToken with
    | .error _ => none
    | .ok t => some (applyBasicAuth c (hdrSet h2 "Authorization" ("Bearer " ++ t)))

/-- The request SendRequest dispatches, when it dispatches one: none when
http.NewRequest fails (the call dies in log.Fatal) or when the OAuth2
token fetch fails (the call returns an error before dispatch). -/
def dispatchedRequest (c : APIClient) (env : Env) (method path data : String) :
    Option BuiltRequest :=
  match env.newRequestError with
  | some _ => none
  | none =>
    (requestHeaders c env data).map
      (fun hs => { method := method, url := c.Uri ++ path, headers := hs, hasBody := data ≠ "" })

/-- Outcome of one SendRequest call: fatal models log.Fatal terminating
the process; result carries the returned (string, error) pair. -/
inductive SendResult where
  | fatal : SendResult
  | result (body : String) (error : Option String) : SendResult
deriving DecidableEq, Repr

/-- The APIError text fmt.Errorf("unexpected response code \x27%d\x27: %s", ...). -/
def apiErrMsg (code : ℤ) (body : String) : String :=
  "unexpected response code \x27" ++ toString code ++ "\x27: " ++ body

/-- apiclient.SendRequest: returns the call outcome together with the
post-call client (the stored JWT claims are mutated in place by
completeClaimValidityTime before signing). Control flow follows the
source: http.NewRequest error hits log.Fatal; JWT completion and signing
happen next (the signing error is discarded); an OAuth2 token error
returns; the rate limiter error is discarded; a transport error returns;
a body read error returns; then the XSSI strip, the status
classification into [200,300), and the empty-body normalization. -/
def sendRequest (c : APIClient) (env : Env) (method path data : String) :
    SendResult × APIClient :=
  match env.newRequestError with
  | some _ => (.fatal, c)
  | none =>
    let c2 := { c with Jwt := c.Jwt.map (completeClaimValidityTime env.now) }
    match c.OauthConfig, env.oauthToken with
    | some _, .error e => (.result "" (some e), c2)
    | _, _ =>
      match env.transport with
      | .error e => (.result "" (some e), c2)
      | .ok resp =>
        match resp.readErr with
        | some e => (.result "" (some e), c2)
        | none =>
          let body := trimPrefixGo resp.bodyStr c.XssiPrefixVal
          if resp.statusCode < 200 ∨ 300 ≤ resp.statusCode then
            (.result body (some (apiErrMsg resp.statusCode body)), c2)
          else if body = "" then (.result "\x7b\x7d" none, c2)
          else (.result body none, c2)

/-- An environment where everything succeeds and the server answers 200
with the given body at epoch second 1000. -/
def envOk (body : String) : Env :=
  { newRequestError := none, now := 1000, sign := .ok "sig"
    oauthToken := .ok "tok", limiterErr := none
    transport := .ok { statusCode := 200, bodyStr := body, readErr := none } }

/-- A plain client used in the concrete examples. -/
def clientBase : APIClient :=
  { Uri := "https://api.example.com", Jwt := none, Insecure := false
    Username := "", Password := "", Headers := [], IdAttribute := "id"
    CreateMethod := "POST", ReadMethod := "GET", ReadData := ""
    UpdateMethod := "PUT", UpdateData := "", DestroyMethod := "DELETE"
    DestroyData := "", CopyKeys := [], WriteReturnsObject := false
    CreateReturnsObject := false, XssiPrefixVal := "", RateLimiterRate := 1
    RateLimiterBurst := 1, Debug := false, OauthConfig := none }

example :
    (sendRequest clientBase (envOk "hello") "GET" "/x" "").1 =
      .result "hello" none := by decide
example :
    (sendRequest clientBase (envOk "") "GET" "/x" "").1 =
      .result "\x7b\x7d" none := by decide
example :
    (sendRequest { clientBase with XssiPrefixVal := "while(1);" }
        (envOk "while(1);ok") "GET" "/x" "").1 = .result "ok" none := by decide
example :
    (sendRequest clientBase { envOk "x" with newRequestError := some "bad method" }
        "B AD" "/x" "").1 = .fatal := by decide
example :
    dispatchedRequest { clientBase with Username := "u", Password := "p" }
        (envOk "x") "GET" "/x" "" =
      some { method := "GET", url := "https://api.example.com/x"
             headers := [("Authorization", "Basic dTpw")], hasBody := false } := by decide

/-! ### tenant_resource.go: update_computed_fields and ImportState -/

/-- A decoded JSON value as encoding/json unmarshals into `any`
(numbers as float64, objects as map[string]any, arrays as []any). -/
inductive Jv where
  | jnull : Jv
  | jbool (b : Bool) : Jv
  | jnum (q : ℚ) : Jv
  | jstr (s : String) : Jv
  | jarr (xs : List Jv) : Jv
  | jobj (fields : List (String × Jv)) : Jv

/-- The Go type assertion v.(string). -/
def jvAsString : Jv → Option String
  | .jstr s => some s
  | _ => none

/-- Outcome of (m *tenantResourceModel) update_computed_fields: panics
models a Go runtime panic; fails carries the returned error text; ok
carries the values written into m.Id and m.Tenant. -/
inductive UcfOutcome where
  | panics : UcfOutcome
  | fails (msg : String) : UcfOutcome
  | ok (id tenant : String) : UcfOutcome
deriving DecidableEq, Repr

/-- The per-field tail of update_computed_fields: the comma-ok presence
check on mapData["id"], the string assertion, then the same for
"identifier". -/
def ucfFields (mapData : List (String × Jv)) : UcfOutcome :=
  match assocGet mapData "id" with
  | none => .fails "id not found"
  | some v =>
    match jvAsString v with
    | none => .fails "id value can\x27t be casted into string"
    | some i =>
      match assocGet mapData "identifier" with
      | none => .fails "identifier not found"
      | some w =>
        match jvAsString w with
        | none => .fails "identifier value can\x27t be casted into string"
        | some t => .ok i t

/-- update_computed_fields (tenant_resource.go, first revision). Its
input is the result of json.Unmarshal on the body: none models an
unmarshal error. The type switch accepts an object or an array; in the
array arm the source indexes data.([]any)[0] without a length guard, so
an empty array is a runtime panic, not an error return. -/
def update_computed_fields (decoded : Option Jv) : UcfOutcome :=
  match decoded with
  | none => .fails "unmarshal error"
  | some d =>
    match d with
    | .jobj fields => ucfFields fields
    | .jarr xs =>
      match xs with
      | [] => .panics
      | x :: _ =>
        match x with
        | .jobj fields => ucfFields fields
        | _ => .fails "type assertion from any to []any fail"
    | _ => .fails "the json data is not an array, neither a map"

example :
    update_computed_fields (some (.jobj [("id", .jstr "42"), ("identifier", .jstr "t1")])) =
      .ok "42" "t1" := rfl
example :
    update_computed_fields (some (.jarr [.jobj [("id", .jstr "7"), ("identifier", .jstr "t")]])) =
      .ok "7" "t" := rfl
example : update_computed_fields (some (.jarr [])) = .panics := rfl
example : update_computed_fields (some (.jnum 3)) =
    .fails "the json data is not an array, neither a map" := rfl
example : update_computed_fields (some (.jobj [("id", .jnum 1), ("identifier", .jstr "t")])) =
    .fails "id value can\x27t be casted into string" := rfl

/-- ImportState identifier parsing: idParts := strings.Split(req.ID, ",");
error unless exactly two parts, both non-empty. -/
def importStateParse (id : String) : Option (String × String) :=
  match splitCommaGo id with
  | [a, b] => if a = "" ∨ b = "" then none else some (a, b)
  | _ => none

/-- The read request ImportState issues on a successfully parsed
identifier: GET on TrimRight(path, "/") + "?identifier=" + tenant. -/
def importStateRequest (id : String) : Option (String × String) :=
  (importStateParse id).map
    (fun pt => ("GET", trimRightSlashGo pt.1 ++ "?identifier=" ++ pt.2))

/-- The first-comma split the specification describes: everything before
the first comma, and the whole remainder after it. -/
def splitFirstComma (s : String) : Option (String × String) :=
  match splitCommaCh s.data with
  | [] => none
  | [_] => none
  | a :: rest => some (String.mk a, String.intercalate "," (rest.map String.mk))

example : importStateParse "/tenants,acme" = some ("/tenants", "acme") := by decide
example : importStateParse "a,b,c" = none := by decide
example : importStateParse ",b" = none := by decide
example : importStateParse "a," = none := by decide
example : importStateParse "ab" = none := by decide
example : splitFirstComma "a,b,c" = some ("a", "b,c") := by decide
example : importStateRequest "/tenants/,acme" = some ("GET", "/tenants?identifier=acme") := by decide

/-! ### Association-list and header lemmas -/

theorem assocGet_assocSet_self {α : Type} (m : List (String × α)) (k : String) (v : α) :
    assocGet (assocSet m k v) k = some v := by
  induction m with
  | nil => simp [assocSet, assocGet]
  | cons hd tl ih =>
    by_cases hk : hd.1 = k
    · simp [assocSet, assocGet, hk]
    · simp [assocSet, assocGet, hk, ih]

theorem assocGet_assocSet_other {α : Type} (m : List (String × α)) (k k' : String) (v : α)
    (h : k' ≠ k) : assocGet (assocSet m k v) k' = assocGet m k' := by
  induction m with
  | nil =>
    simp only [assocSet, assocGet]
    rw [if_neg (fun hh => h hh.symm)]
  | cons hd tl ih =>
    by_cases hk : hd.1 = k
    · subst hk
      simp only [assocSet, if_pos rfl, assocGet]
      rw [if_neg (fun hh => h hh.symm), if_neg (fun hh => h hh.symm)]
    · simp only [assocSet, if_neg hk, assocGet]
      by_cases hk' : hd.1 = k'
      · simp [hk']
      · simp [hk', ih]

theorem hdrGet_hdrSet_self (h : Header) (k v : String) :
    hdrGet (hdrSet h k v) k = some v := by
  unfold hdrGet hdrSet
  exact assocGet_assocSet_self h (canonicalKeyGo k) v

/-! ### C5: claim completion arithmetic -/

/-- C5: for every JwtHashedToken, if ValidityDurationMinute > 0 the
completion step sets nbf and iat to the epoch second `now` and exp to
now + ValidityDurationMinute*60 (touching no other claim key), and if
ValidityDurationMinute ≤ 0 it leaves the token entirely unchanged. -/
theorem completeClaim_validity_times (j : JwtHashedToken) (now : ℤ) :
    (0 < j.ValidityDurationMinute →
      assocGet (completeClaimValidityTime now j).Claims "nbf" = some (.vint now) ∧
      assocGet (completeClaimValidityTime now j).Claims "iat" = some (.vint now) ∧
      assocGet (completeClaimValidityTime now j).Claims "exp" =
        some (.vint (now + j.ValidityDurationMinute * 60)) ∧
      (∀ k, k ≠ "nbf" → k ≠ "iat" → k ≠ "exp" →
        assocGet (completeClaimValidityTime now j).Claims k = assocGet j.Claims k)) ∧
    (j.ValidityDurationMinute ≤ 0 → completeClaimValidityTime now j = j) := by
  constructor
  · intro hpos
    unfold completeClaimValidityTime
    rw [if_pos hpos]
    refine ⟨?_, ?_, ?_, ?_⟩
    · rw [assocGet_assocSet_other _ _ _ _ (by decide),
        assocGet_assocSet_other _ _ _ _ (by decide),
        assocGet_assocSet_self]
    · rw [assocGet_assocSet_other _ _ _ _ (by decide), assocGet_assocSet_self]
    · rw [assocGet_assocSet_self]
    · intro k hn hi he
      rw [assocGet_assocSet_other _ _ _ _ he, assocGet_assocSet_other _ _ _ _ hi,
        assocGet_assocSet_other _ _ _ _ hn]
  · intro hle
    unfold completeClaimValidityTime
    rw [if_neg (by omega)]

/-- Witness for C5 at a concrete token and epoch. -/
theorem completeClaim_validity_times_witness :
    assocGet (completeClaimValidityTime 1000
      { Secret := [1], Algortithm := "HS256"
        Claims := [("aud", .vstr "x")], ValidityDurationMinute := 2 }).Claims "exp" =
      some (.vint 1120) :=
  ((completeClaim_validity_times
    { Secret := [1], Algortithm := "HS256"
      Claims := [("aud", .vstr "x")], ValidityDurationMinute := 2 } 1000).1
    (by decide)).2.2.1

/-! ### C6: rate limiter burst -/

theorem floor_add_half (q : ℚ) : ⌊q + 1 / 2⌋ = (2 * q.num + (q.den : ℤ)) / (2 * (q.den : ℤ)) := by
  have hden : ((q.den : ℚ)) ≠ 0 := Nat.cast_ne_zero.mpr q.den_nz
  have hnum : (q.num : ℚ) = q * q.den := (div_eq_iff hden).mp (Rat.num_div_den q)
  have h : q + 1 / 2 = (((2 * q.num + (q.den : ℤ) : ℤ) : ℚ)) / (((2 * q.den : ℕ) : ℚ)) := by
    push_cast
    field_simp
    rw [hnum]
    ring
  rw [h, show (((2 * q.den : ℕ) : ℚ)) = (((2 * q.den : ℕ) : ℕ) : ℚ) from rfl,
    Rat.floor_intCast_div_natCast]
  push_cast
  rfl

theorem goRoundZ_eq_roundHalfAway (r : ℚ) : goRoundZ r = roundHalfAway r := by
  unfold goRoundZ roundHalfAway
  by_cases hnum : 0 ≤ r.num
  · rw [if_pos hnum, if_pos (Rat.num_nonneg.mp hnum), floor_add_half]
  · rw [if_neg hnum, if_neg (fun hr => hnum (Rat.num_nonneg.mpr hr)), floor_add_half]
    rw [Rat.num_neg_eq_neg_num, Rat.den_neg_eq_den]

/-- C6: for every accepted configuration, the constructed rate limiter
burst equals max(round(R), 1) and is at least 1, for every R including
R ≤ 0. -/
theorem newClient_burst (opt : ApiClientOpt) (env : TlsEnv) (p : ApiClientOpt) (c : APIClient)
    (h : NewAPIClientGo opt env = .ok (p, c)) :
    c.RateLimiterBurst = max (roundHalfAway opt.RateLimit) 1 ∧ 1 ≤ c.RateLimiterBurst := by
  have hb : c.RateLimiterBurst = bucketSizeGo opt.RateLimit := by
    simp only [NewAPIClientGo] at h
    split_ifs at h
    simp only [Except.ok.injEq, Prod.mk.injEq] at h
    rw [← h.2]
    rfl
  rw [hb, bucketSizeGo, goRoundZ_eq_roundHalfAway]
  exact ⟨rfl, le_max_right _ _⟩

/-- Witness for C6 at a negative configured rate: the burst is 1. -/
theorem newClient_burst_witness :
    (match NewAPIClientGo { optBase with Uri := "https://x", RateLimit := -3 } tlsAllOk with
      | .ok pc => pc.2.RateLimiterBurst
      | .error _ => 0) = max (roundHalfAway (-3)) 1 :=
  (newClient_burst { optBase with Uri := "https://x", RateLimit := -3 } tlsAllOk _ _ rfl).1

/-! ### C10: in-place mutation of the options struct -/

/-- C10: for every options value accepted by NewAPIClient, the
caller-supplied struct comes back with its Uri trimmed of the trailing
slash, its IdAttribute and four method fields overwritten with the
defaults id/POST/GET/PUT/DELETE exactly when they were empty, and every
other field unchanged. -/
theorem newClient_mutates_opt (opt : ApiClientOpt) (env : TlsEnv) (p : ApiClientOpt)
    (c : APIClient) (h : NewAPIClientGo opt env = .ok (p, c)) :
    p.Uri = trimSuffixGo opt.Uri "/" ∧
    p.IdAttribute = (if opt.IdAttribute = "" then "id" else opt.IdAttribute) ∧
    p.CreateMethod = (if opt.CreateMethod = "" then "POST" else opt.CreateMethod) ∧
    p.ReadMethod = (if opt.ReadMethod = "" then "GET" else opt.ReadMethod) ∧
    p.UpdateMethod = (if opt.UpdateMethod = "" then "PUT" else opt.UpdateMethod) ∧
    p.DestroyMethod = (if opt.DestroyMethod = "" then "DELETE" else opt.DestroyMethod) ∧
    p.Jwt = opt.Jwt ∧ p.Insecure = opt.Insecure ∧ p.Username = opt.Username ∧
    p.Password = opt.Password ∧ p.Headers = opt.Headers ∧ p.Timeout = opt.Timeout ∧
    p.ReadData = opt.ReadData ∧ p.UpdateData = opt.UpdateData ∧
    p.DestroyData = opt.DestroyData ∧ p.CopyKeys = opt.CopyKeys ∧
    p.WriteReturnsObject = opt.WriteReturnsObject ∧
    p.CreateReturnsObject = opt.CreateReturnsObject ∧
    p.XssiPrefixVal = opt.XssiPrefixVal ∧ p.UseCookies = opt.UseCookies ∧
    p.RateLimit = opt.RateLimit ∧ p.OauthClientID = opt.OauthClientID ∧
    p.OauthClientSecret = opt.OauthClientSecret ∧ p.OauthScopes = opt.OauthScopes ∧
    p.OauthTokenURL = opt.OauthTokenURL ∧
    p.OauthEndpointParams = opt.OauthEndpointParams ∧
    p.CertFile = opt.CertFile ∧ p.KeyFile = opt.KeyFile ∧
    p.RootCaFile = opt.RootCaFile ∧ p.CertString = opt.CertString ∧
    p.KeyString = opt.KeyString ∧ p.RootCaString = opt.RootCaString ∧
    p.Debug = opt.Debug := by
  simp only [NewAPIClientGo] at h
  split_ifs at h
  simp only [Except.ok.injEq, Prod.mk.injEq] at h
  obtain ⟨hp, hc⟩ := h
  subst hp
  exact ⟨rfl, rfl, rfl, rfl, rfl, rfl, rfl, rfl, rfl, rfl, rfl, rfl, rfl, rfl, rfl, rfl,
    rfl, rfl, rfl, rfl, rfl, rfl, rfl, rfl, rfl, rfl, rfl, rfl, rfl, rfl, rfl, rfl, rfl⟩

/-- A concrete option value with a trailing slash and a mix of set and
empty method fields. -/
def optMixed : ApiClientOpt :=
  { optBase with Uri := "https://h.example/api/", ReadMethod := "HEAD", Username := "u" }

/-- The pair NewAPIClient produces, with a dummy on the error path, used
to state closed witnesses. -/
def newClientPair (opt : ApiClientOpt) (env : TlsEnv) : ApiClientOpt × APIClient :=
  match NewAPIClientGo opt env with
  | .ok pc => pc
  | .error _ => (opt, mkAPIClient opt)

/-- Witness for C10: the returned options carry the trimmed Uri. -/
theorem newClient_mutates_opt_witness :
    (newClientPair optMixed tlsAllOk).1.Uri = trimSuffixGo optMixed.Uri "/" :=
  (newClient_mutates_opt optMixed tlsAllOk (newClientPair optMixed tlsAllOk).1
    (newClientPair optMixed tlsAllOk).2 rfl).1

/-! ### C7: trailing slashes of the base URI -/

/-- A URI whose path ends in two slashes. -/
def optDoubleSlash : ApiClientOpt := { optBase with Uri := "https://example.com//" }

/-- C7 evaluated at the failing input: on a Uri ending in two slashes the
constructed client keeps a trailing slash in its base URI (TrimSuffix
removes one copy only), and the dispatched request URL is the verbatim
concatenation of that base URI and the path, so the double slash leaks
into the target. The claim says the base URI never ends in a slash. -/
theorem newClient_trailing_slash_remains :
    (NewAPIClientGo optDoubleSlash tlsAllOk).map (fun pc => pc.2.Uri) =
      .ok "https://example.com/" ∧
    (NewAPIClientGo optDoubleSlash tlsAllOk).map (fun pc => hasSuffixGo pc.2.Uri "/") =
      .ok true ∧
    (dispatchedRequest (newClientPair optDoubleSlash tlsAllOk).2 (envOk "x") "GET" "/p" "").map
      BuiltRequest.url = some "https://example.com//p" := by decide

/-! ### C1: Basic credentials win the Authorization header -/

theorem hdrGet_applyBasicAuth (c : APIClient) (h : Header)
    (hu : c.Username ≠ "") (hp : c.Password ≠ "") :
    hdrGet (applyBasicAuth c h) "Authorization" =
      some ("Basic " ++ basicAuth c.Username c.Password) := by
  unfold applyBasicAuth
  rw [if_pos ⟨hu, hp⟩]
  exact hdrGet_hdrSet_self _ _ _

/-- C1: for every client with non-empty username and password, every
request SendRequest dispatches carries the HTTP Basic credentials in its
final Authorization header, whatever the static headers, JWT and OAuth2
steps wrote before (apply order static headers, JWT, OAuth2, Basic; last
write wins). -/
theorem dispatched_authorization_is_basic (c : APIClient) (env : Env)
    (m p d : String) (req : BuiltRequest)
    (hreq : dispatchedRequest c env m p d = some req)
    (hu : c.Username ≠ "") (hp : c.Password ≠ "") :
    hdrGet req.headers "Authorization" =
      some ("Basic " ++ basicAuth c.Username c.Password) := by
  unfold dispatchedRequest at hreq
  cases hne : env.newRequestError with
  | some e => rw [hne] at hreq; exact absurd hreq (by simp)
  | none =>
    rw [hne] at hreq
    unfold requestHeaders at hreq
    cases hoc : c.OauthConfig with
    | none =>
      rw [hoc] at hreq
      have hreq2 := Option.some.inj hreq
      rw [← hreq2]
      exact hdrGet_applyBasicAuth c _ hu hp
    | some cfg =>
      rw [hoc] at hreq
      cases hot : env.oauthToken with
      | error e => rw [hot] at hreq; exact absurd hreq (by simp)
      | ok t =>
        rw [hot] at hreq
        have hreq2 := Option.some.inj hreq
        rw [← hreq2]
        exact hdrGet_applyBasicAuth c _ hu hp

/-- A token template used in the concrete clients below. -/
def jwtTok : JwtHashedToken :=
  { Secret := [1, 2, 3], Algortithm := "HS256"
    Claims := [("aud", .vstr "x")], ValidityDurationMinute := 1 }

/-- A concrete OAuth2 client-credentials configuration. -/
def oauthCfgEx : OauthCfg :=
  { ClientID := "cid", ClientSecret := "cs", TokenURL := "https://t"
    Scopes := [], EndpointParams := [] }

/-- A client with static Authorization header, JWT, OAuth2 and Basic all
configured at once. -/
def clientAllAuth : APIClient :=
  { clientBase with
    Username := "u"
    Password := "p"
    Headers := [("Authorization", "token abc"), ("X-Custom", "1")]
    Jwt := some jwtTok
    OauthConfig := some oauthCfgEx }

/-- Extracts the dispatched request, with a dummy for the none case, so
that witnesses are closed statements. -/
def someRequestOrDummy (o : Option BuiltRequest) : BuiltRequest :=
  match o with
  | some r => r
  | none => { method := "", url := "", headers := [], hasBody := false }

/-- Witness for C1: with headers, JWT, OAuth2 and Basic all configured,
the dispatched Authorization header is the Basic one. -/
theorem dispatched_authorization_is_basic_witness :
    hdrGet (someRequestOrDummy
        (dispatchedRequest clientAllAuth (envOk "x") "POST" "/a" "b")).headers
      "Authorization" = some ("Basic " ++ basicAuth "u" "p") :=
  dispatched_authorization_is_basic clientAllAuth (envOk "x") "POST" "/a" "b"
    (someRequestOrDummy (dispatchedRequest clientAllAuth (envOk "x") "POST" "/a" "b"))
    rfl (by decide) (by decide)

/-! ### C2: status classification, body alongside error, empty-body
normalization -/

/-- C2: for every call that receives an HTTP response (request built,
OAuth2 token obtained when configured, transport and body read
succeeded), the call errors exactly when the status is outside [200,300);
the error carries the XSSI-stripped body, which is also returned, and a
successful entirely-empty body comes back as the two-character object
literal. -/
theorem sendRequest_classification (c : APIClient) (env : Env) (m p d : String)
    (resp : HttpResp)
    (h1 : env.newRequestError = none)
    (h2 : c.OauthConfig.isSome = true → ∃ t, env.oauthToken = Except.ok t)
    (h3 : env.transport = Except.ok resp) (h4 : resp.readErr = none) :
    ((resp.statusCode < 200 ∨ 300 ≤ resp.statusCode) →
      (sendRequest c env m p d).1 =
        .result (trimPrefixGo resp.bodyStr c.XssiPrefixVal)
          (some (apiErrMsg resp.statusCode (trimPrefixGo resp.bodyStr c.XssiPrefixVal)))) ∧
    ((200 ≤ resp.statusCode ∧ resp.statusCode < 300) →
      (sendRequest c env m p d).1 =
        .result (if trimPrefixGo resp.bodyStr c.XssiPrefixVal = "" then "\x7b\x7d"
                 else trimPrefixGo resp.bodyStr c.XssiPrefixVal) none) := by
  have hcore : (sendRequest c env m p d).1 =
      (if resp.statusCode < 200 ∨ 300 ≤ resp.statusCode then
        SendResult.result (trimPrefixGo resp.bodyStr c.XssiPrefixVal)
          (some (apiErrMsg resp.statusCode (trimPrefixGo resp.bodyStr c.XssiPrefixVal)))
      else if trimPrefixGo resp.bodyStr c.XssiPrefixVal = "" then
        SendResult.result "\x7b\x7d" none
      else SendResult.result (trimPrefixGo resp.bodyStr c.XssiPrefixVal) none) := by
    have hfin : ∀ c2 : APIClient,
        ((match resp.readErr with
          | some e => (SendResult.result "" (some e), c2)
          | none =>
            let body := trimPrefixGo resp.bodyStr c.XssiPrefixVal
            if resp.statusCode < 200 ∨ 300 ≤ resp.statusCode then
              (SendResult.result body (some (apiErrMsg resp.statusCode body)), c2)
            else if body = "" then (SendResult.result "\x7b\x7d" none, c2)
            else (SendResult.result body none, c2)) : SendResult × APIClient).1 =
        (if resp.statusCode < 200 ∨ 300 ≤ resp.statusCode then
          SendResult.result (trimPrefixGo resp.bodyStr c.XssiPrefixVal)
            (some (apiErrMsg resp.statusCode (trimPrefixGo resp.bodyStr c.XssiPrefixVal)))
        else if trimPrefixGo resp.bodyStr c.XssiPrefixVal = "" then
          SendResult.result "\x7b\x7d" none
        else SendResult.result (trimPrefixGo resp.bodyStr c.XssiPrefixVal) none) := by
      intro c2
      rw [h4]
      dsimp only
      by_cases hs : resp.statusCode < 200 ∨ 300 ≤ resp.statusCode
      · rw [if_pos hs, if_pos hs]
      · rw [if_neg hs, if_neg hs]
        by_cases hb : trimPrefixGo resp.bodyStr c.XssiPrefixVal = ""
        · rw [if_pos hb, if_pos hb]
        · rw [if_neg hb, if_neg hb]
    unfold sendRequest
    rw [h1, h3]
    cases hoc : c.OauthConfig with
    | none =>
      cases hot : env.oauthToken with
      | error e => exact hfin _
      | ok t => exact hfin _
    | some cfg =>
      obtain ⟨t, ht⟩ := h2 (by rw [hoc]; rfl)
      rw [ht]
      exact hfin _
  constructor
  · intro hout
    rw [hcore, if_pos hout]
  · intro hin
    rw [hcore, if_neg (by omega)]
    by_cases hb : trimPrefixGo resp.bodyStr c.XssiPrefixVal = ""
    · rw [if_pos hb, if_pos hb]
    · rw [if_neg hb, if_neg hb]

/-- Witness for C2: a 200 response with empty body normalizes to the
object literal. -/
theorem sendRequest_classification_witness :
    (sendRequest clientBase (envOk "") "GET" "/x" "").1 =
      .result (if trimPrefixGo "" "" = "" then "\x7b\x7d" else trimPrefixGo "" "") none :=
  (sendRequest_classification clientBase (envOk "") "GET" "/x" ""
      { statusCode := 200, bodyStr := "", readErr := none } rfl
      (fun hh => absurd hh (by decide)) rfl rfl).2 (by decide)

/-! ### C3: error propagation -/

/-- A client with a JWT, against an environment whose signer fails but
whose transport succeeds. -/
def envSignFail : Env := { envOk "ok" with sign := .error "signature failure" }

/-- Counterexample to C3: a JWT signing failure arises during the call
(the client has a JWT and the signer errors), yet the call returns
success: the error was discarded with `jwt, _ :=`, not surfaced. -/
theorem sendRequest_sign_error_not_surfaced :
    envSignFail.sign = Except.error "signature failure" ∧
    ({ clientBase with Jwt := some jwtTok } : APIClient).Jwt.isSome = true ∧
    (sendRequest { clientBase with Jwt := some jwtTok } envSignFail "GET" "/p" "").1 =
      .result "ok" none := by decide

/-- C3 as amended: transport errors, body-read errors and OAuth2 token
errors are returned to the caller; an http.NewRequest error terminates
the process through log.Fatal instead of returning; a JWT signing
failure is discarded (the call and the dispatched request behave exactly
as if the signer had returned an empty token); and a rate-limiter
acquire failure is discarded entirely. -/
theorem sendRequest_error_propagation (c : APIClient) (env : Env) (m p d : String) :
    (∀ e, env.newRequestError = some e → (sendRequest c env m p d).1 = .fatal) ∧
    (∀ e, env.newRequestError = none →
      (c.OauthConfig.isSome = true → ∃ t, env.oauthToken = Except.ok t) →
      env.transport = .error e → (sendRequest c env m p d).1 = .result "" (some e)) ∧
    (∀ e resp, env.newRequestError = none →
      (c.OauthConfig.isSome = true → ∃ t, env.oauthToken = Except.ok t) →
      env.transport = .ok resp → resp.readErr = some e →
      (sendRequest c env m p d).1 = .result "" (some e)) ∧
    (∀ e cfg, env.newRequestError = none → c.OauthConfig = some cfg →
      env.oauthToken = .error e → (sendRequest c env m p d).1 = .result "" (some e)) ∧
    (∀ e, sendRequest c { env with sign := .error e } m p d =
      sendRequest c { env with sign := .ok "" } m p d) ∧
    (∀ e, dispatchedRequest c { env with sign := .error e } m p d =
      dispatchedRequest c { env with sign := .ok "" } m p d) ∧
    (∀ e, sendRequest c { env with limiterErr := some e } m p d =
      sendRequest c { env with limiterErr := none } m p d) := by
  refine ⟨?_, ?_, ?_, ?_, ?_, ?_, ?_⟩
  · intro e he
    unfold sendRequest
    rw [he]
  · intro e he hoauth htr
    unfold sendRequest
    rw [he]
    cases hoc : c.OauthConfig with
    | none => rw [htr]
    | some cfg =>
      obtain ⟨t, ht⟩ := hoauth (by rw [hoc]; rfl)
      rw [ht, htr]
  · intro e resp he hoauth htr hre
    unfold sendRequest
    rw [he, htr]
    cases hoc : c.OauthConfig with
    | none =>
      cases hot : env.oauthToken with
      | error e2 =>
        dsimp only
        rw [hre]
      | ok t =>
        dsimp only
        rw [hre]
    | some cfg =>
      obtain ⟨t, ht⟩ := hoauth (by rw [hoc]; rfl)
      rw [ht]
      dsimp only
      rw [hre]
  · intro e cfg he hoc hot
    unfold sendRequest
    rw [he, hoc, hot]
  · intro e
    rfl
  · intro e
    rfl
  · intro e
    rfl

/-- Witness for C3 as amended: a transport failure is returned. -/
theorem sendRequest_error_propagation_witness :
    (sendRequest clientBase { envOk "x" with transport := .error "dial tcp refused" }
        "GET" "/p" "").1 = .result "" (some "dial tcp refused") :=
  (sendRequest_error_propagation clientBase
      { envOk "x" with transport := .error "dial tcp refused" } "GET" "/p" "").2.1
    "dial tcp refused" rfl (fun hh => absurd hh (by decide)) rfl

/-! ### C4: the stored claims template is mutated in place -/

/-- Counterexample to C4: after a successful call on a client whose JWT
has a positive validity duration, the stored claims mapping differs from
the one before the call: nbf, iat and exp were written into it. -/
theorem sendRequest_mutates_stored_claims :
    ((sendRequest { clientBase with Jwt := some jwtTok } (envOk "ok") "GET" "/x" "").2.Jwt.map
        JwtHashedToken.Claims) ≠
      (({ clientBase with Jwt := some jwtTok } : APIClient).Jwt.map JwtHashedToken.Claims) := by
  decide

/-- C4 as amended: whenever the call passes request construction,
SendRequest stores the nbf/iat/exp completion back into the client's
JWT: the stored token after the call is exactly the in-place completion
of the stored template at the call's clock; in particular the claims are
unchanged only when ValidityDurationMinute ≤ 0 or no JWT is configured. -/
theorem sendRequest_claims_inplace (c : APIClient) (env : Env) (m p d : String)
    (h : env.newRequestError = none) :
    (sendRequest c env m p d).2.Jwt = c.Jwt.map (completeClaimValidityTime env.now) := by
  unfold sendRequest
  rw [h]
  rcases c.OauthConfig with _ | cfg <;> rcases env.oauthToken with e | t <;>
    rcases env.transport with e2 | resp <;> try rfl
  all_goals try dsimp only
  all_goals rcases resp.readErr with _ | e3
  all_goals try rfl
  all_goals try dsimp only
  all_goals split <;> try rfl
  all_goals split <;> rfl

/-- Witness for C4 as amended, at a concrete client and clock. -/
theorem sendRequest_claims_inplace_witness :
    (sendRequest { clientBase with Jwt := some jwtTok } (envOk "ok") "GET" "/x" "").2.Jwt =
      ({ clientBase with Jwt := some jwtTok } : APIClient).Jwt.map
        (completeClaimValidityTime 1000) :=
  sendRequest_claims_inplace { clientBase with Jwt := some jwtTok } (envOk "ok")
    "GET" "/x" "" rfl

/-! ### C8: schema-agnostic field extraction -/

/-- C8 evaluated at the failing input: on the body [] — valid JSON whose
resolved container is an empty array — update_computed_fields hits
data.([]any)[0] and panics with an index-out-of-range crash instead of
returning an error, against the claim that every such body yields an
error and the extraction never crashes. -/
theorem update_computed_fields_empty_array_panics :
    update_computed_fields (some (Jv.jarr [])) = .panics := rfl

/-! ### C9: import identifier splitting -/

theorem splitCommaCh_ne_nil (l : List Char) : splitCommaCh l ≠ [] := by
  cases l with
  | nil => simp [splitCommaCh]
  | cons c cs =>
    by_cases hc : c = ','
    · simp [splitCommaCh, hc]
    · simp only [splitCommaCh, if_neg hc]
      cases hs : splitCommaCh cs <;> simp

theorem splitCommaCh_no_comma (a : List Char) (h : ',' ∉ a) : splitCommaCh a = [a] := by
  induction a with
  | nil => rfl
  | cons c cs ih =>
    have hc : c ≠ ',' := fun hh => h (hh ▸ List.mem_cons_self c cs)
    have hcs : ',' ∉ cs := fun hh => h (List.mem_cons_of_mem c hh)
    simp only [splitCommaCh, if_neg hc, ih hcs]

theorem splitCommaCh_append (a b : List Char) (h : ',' ∉ a) :
    splitCommaCh (a ++ ',' :: b) = a :: splitCommaCh b := by
  induction a with
  | nil => simp [splitCommaCh]
  | cons c cs ih =>
    have hc : c ≠ ',' := fun hh => h (hh ▸ List.mem_cons_self c cs)
    have hcs : ',' ∉ cs := fun hh => h (List.mem_cons_of_mem c hh)
    have ih2 := ih hcs
    simp only [List.cons_append, splitCommaCh, if_neg hc]
    rw [List.append_eq, ih2]

theorem splitCommaCh_length_two_le (l : List Char) (h : ',' ∈ l) :
    2 ≤ (splitCommaCh l).length := by
  induction l with
  | nil => cases h
  | cons c cs ih =>
    by_cases hc : c = ','
    · subst hc
      have h1 : splitCommaCh cs ≠ [] := splitCommaCh_ne_nil cs
      have h2 : 1 ≤ (splitCommaCh cs).length := List.length_pos.mpr h1
      rw [show splitCommaCh (',' :: cs) = [] :: splitCommaCh cs from rfl, List.length_cons]
      omega
    · have hcs : ',' ∈ cs := by
        rcases List.mem_cons.mp h with heq | hmem
        · exact absurd heq.symm hc
        · exact hmem
      simp only [splitCommaCh, if_neg hc]
      cases hs : splitCommaCh cs with
      | nil => exact absurd hs (splitCommaCh_ne_nil cs)
      | cons hd tl =>
        have := ih hcs
        rw [hs] at this
        simpa using this

theorem strData_append_comma (p t : String) :
    (p ++ "," ++ t).data = p.data ++ ',' :: t.data := by
  rw [String.data_append, String.data_append]
  simp [List.append_assoc]

/-- Counterexample to C9: on the composite identifier a,b,c a
first-comma split yields the two non-empty parts a and b,c, so the claim
says the import proceeds; the code splits at every comma, sees three
parts, and rejects the identifier. -/
theorem importState_rejects_first_comma_split :
    splitFirstComma "a,b,c" = some ("a", "b,c") ∧
    "a" ≠ "" ∧ "b,c" ≠ "" ∧
    importStateParse "a,b,c" = none := by decide

/-- C9 as amended: the import operation splits the composite identifier
at every comma and accepts it only when exactly two non-empty parts
result; for an accepted path,identifier pair the state is re-derived by
a GET against TrimRight(path, "/") + "?identifier=" + identifier, and an
identifier containing a comma is rejected rather than split at the first
comma. -/
theorem importState_split_exact (p t : String) (hp : p ≠ "") (ht : t ≠ "")
    (hcp : ',' ∉ p.data) :
    ((',' ∉ t.data) →
      importStateRequest (p ++ "," ++ t) =
        some ("GET", trimRightSlashGo p ++ "?identifier=" ++ t)) ∧
    ((',' ∈ t.data) → importStateParse (p ++ "," ++ t) = none) := by
  constructor
  · intro hct
    unfold importStateRequest importStateParse splitCommaGo
    rw [strData_append_comma, splitCommaCh_append _ _ hcp, splitCommaCh_no_comma _ hct]
    dsimp only [List.map]
    rw [if_neg (fun hor => Or.elim hor (fun h1 => hp h1) (fun h2 => ht h2))]
    rfl
  · intro hct
    unfold importStateParse splitCommaGo
    rw [strData_append_comma, splitCommaCh_append _ _ hcp]
    have h2 := splitCommaCh_length_two_le t.data hct
    cases hs : splitCommaCh t.data with
    | nil => exact absurd hs (splitCommaCh_ne_nil _)
    | cons hd tl =>
      cases tl with
      | nil => rw [hs] at h2; simp at h2
      | cons hd2 tl2 => rfl

/-- Witness for C9 as amended at a concrete path and tenant. -/
theorem importState_split_exact_witness :
    importStateRequest ("/tenants" ++ "," ++ "acme") =
      some ("GET", trimRightSlashGo "/tenants" ++ "?identifier=" ++ "acme") :=
  (importState_split_exact "/tenants" "acme" (by decide) (by decide) (by decide)).1
    (by decide)

end RestApi
